import Mathlib

/-! Shallow embedding of the FileJump synchronization client
    (`FjOperations.py` and `FileJumpApi.py`): folder provisioning with its
    retry loop, the delete/prune loop, the download and upload loops, the
    directory-tree record emission and the JSON fingerprint codec carried in
    the remote `description` field.  Theorems at the end of the file settle
    the specification's claims against these definitions. -/

namespace FJ

/-- Python `str.ljust(w, fill)`: right-pad `s` with `fill` up to width `w`
    (identity when `s` is already at least `w` characters long). -/
def ljust (s : String) (w : Nat) (fill : Char) : String :=
  s ++ String.mk (List.replicate (w - s.length) fill)

/-- Folder-name mangling from `FjOperations.create_folders` (lines 147-149):
    a segment shorter than 3 characters is right-padded with underscores. -/
def mangle (s : String) : String :=
  if s.length < 3 then ljust s 3 '_' else s

/-- Helper for `splitChar`, carrying the reversed current segment. -/
def splitCharAux (sep : Char) : List Char → List Char → List String
  | [], acc => [String.mk acc.reverse]
  | c :: cs, acc =>
    if c = sep then String.mk acc.reverse :: splitCharAux sep cs []
    else splitCharAux sep cs (c :: acc)

/-- Python `str.split(sep)` for a one-character separator (as used with
    `"\\"` and `"/"` in `FjOperations`): `"".split(sep) == [""]`, empty
    segments are kept. -/
def splitChar (sep : Char) (s : String) : List String :=
  splitCharAux sep s.data []

/-- Association-list model of a Python `dict` with `String` keys:
    first matching key wins (keys are kept unique by `insertD`). -/
def lookup : List (String × Nat) → String → Option Nat
  | [], _ => none
  | (k, v) :: rest, key => if k = key then some v else lookup rest key

/-- Python `dict` assignment `d[k] = v`: replace the value in place when the
    key exists, otherwise append the new binding (insertion order kept). -/
def insertD : List (String × Nat) → String → Nat → List (String × Nat)
  | [], k, v => [(k, v)]
  | (k', v') :: rest, k, v =>
    if k' = k then (k, v) :: rest else (k', v') :: insertD rest k v

/-- One element of `self.all_fj_folders` as used by `create_folders`:
    the folder's name, its id, and the `ppath` recorded on creation. -/
structure FolderData where
  name  : String
  id    : Nat
  ppath : String
deriving DecidableEq

/-- `folders_list = {item["name"]: item["id"] for item in self.all_fj_folders}`
    (`FjOperations.create_folders` line 141); later duplicates override. -/
def buildIndex (folders : List FolderData) : List (String × Nat) :=
  folders.foldl (fun m fd => insertD m fd.name fd.id) []

/-- State threaded through `create_folders`: the name→id dict, the shared
    `all_fj_folders` list, plus the trace of `api.create_folder(name, parentId)`
    calls issued and the total `sleep` time, used to state the claims. -/
structure PState where
  foldersList : List (String × Nat)
  allFolders  : List FolderData
  calls       : List (String × Nat)
  sleeps      : Nat
deriving DecidableEq

/-- Outcome of one `api.create_folder` call: an `FJError` (caught and retried
    by the loop), a response whose JSON lacks the `"folder"` key, or folder
    data `{name, id}`. -/
inductive CreateOutcome where
  | err
  | okNoFolder
  | ok (fd : FolderData)
deriving DecidableEq

/-- The folder-creation collaborator, as a function of the global call index
    (how many create calls were issued before), the requested name and the
    parent id passed to the API. -/
abbrev Create := Nat → String → Nat → CreateOutcome

/-- Result of the retry loop around `api.create_folder`. -/
inductive LoopRes where
  | tooMany
  | gotNone
  | got (fd : FolderData)
deriving DecidableEq

/-- The `while True` retry loop of `create_folders` (lines 154-166):
    `if num_tries > 5: raise`, then `num_tries += 1`, then the create call;
    an `FJError` sleeps 20 seconds and retries.  `fuel` only bounds the
    recursion for termination: the loop body runs at most 7 times (the check
    fires at `numTries = 6`), so any `fuel ≥ 7` makes the fuel-out branch
    unreachable when starting from `numTries = 0`. -/
def createLoopF (create : Create) (folder : String) (pid : Nat) :
    Nat → Nat → PState → PState × LoopRes
  | _, 0, st => (st, .tooMany)
  | numTries, fuel + 1, st =>
    if numTries > 5 then (st, .tooMany)
    else
      let out := create st.calls.length folder pid
      let st' := { st with calls := st.calls ++ [(folder, pid)] }
      match out with
      | .err => createLoopF create folder pid (numTries + 1) fuel
          { st' with sleeps := st'.sleeps + 20 }
      | .okNoFolder => (st', .gotNone)
      | .ok fd => (st', .got fd)

/-- Errors raised by `create_folders`: the `KeyError` from
    `folders_list[parent_folder]`, the `FJError` after the retry loop gives
    up, and the `FJError` for a response without folder data. -/
inductive PErrK where
  | keyError (key : String)
  | tooManyTries (folder parent : String)
  | noFolderData (folder : String)
deriving DecidableEq

/-- Body of the `for i in range(len(path_list))` loop of `create_folders`
    (lines 145-176) for one index `i`: mangle the segment, skip it when it is
    already a key of `folders_list`, otherwise look up the (padded) parent —
    `path_list[i-1]` for `i > 0`, else the supplied `parent_id` — run the
    retry loop, and on success record `ppath`, insert the returned name into
    the dict and append the folder to `all_fj_folders`. -/
def processSegment (create : Create) (pathList : List String) (parentId : String)
    (i : Nat) (st : PState) : PState × Option PErrK :=
  let folder := mangle (pathList.getD i "")
  if (lookup st.foldersList folder).isSome then (st, none)
  else
    let parentName := ljust (if i > 0 then pathList.getD (i - 1) "" else parentId) 3 '_'
    match lookup st.foldersList parentName with
    | none => (st, some (.keyError parentName))
    | some pid =>
      match createLoopF create folder pid 0 7 st with
      | (st', .tooMany) => (st', some (.tooManyTries folder parentName))
      | (st', .gotNone) => (st', some (.noFolderData folder))
      | (st', .got fd) =>
        let fd' := { fd with ppath := String.intercalate "\\" (pathList.take (i + 1)) }
        ({ st' with
            foldersList := insertD st'.foldersList fd'.name fd'.id,
            allFolders := st'.allFolders ++ [fd'] }, none)

/-- The segment loop of `create_folders`, over a list of indices
    (instantiated with `List.range pathList.length`); an exception aborts
    the whole call, so the fold stops at the first error. -/
def processSegs (create : Create) (pathList : List String) (parentId : String) :
    List Nat → PState → PState × Option PErrK
  | [], st => (st, none)
  | i :: rest, st =>
    match processSegment create pathList parentId i st with
    | (st', none) => processSegs create pathList parentId rest st'
    | (st', some e) => (st', some e)

/-- `for file_info in files_list:` of `create_folders` (line 142): each file
    contributes its `ppath`, split on the backslash. -/
def processFiles (create : Create) (parentId : String) :
    List String → PState → PState × Option PErrK
  | [], st => (st, none)
  | p :: rest, st =>
    let pathList := splitChar '\\' p
    match processSegs create pathList parentId (List.range pathList.length) st with
    | (st', none) => processFiles create parentId rest st'
    | (st', some e) => (st', some e)

/-- `FjOperations.create_folders(files_list, parent_id)` (lines 133-176),
    with each file represented by its `ppath` string and the collaborator
    `api.create_folder` abstracted as `create`.  (The `if not files_list:
    return` early exit is observably the empty fold.)  Returns the final
    shared state and the exception, if one was raised. -/
def create_folders (create : Create) (files : List String) (parentId : String)
    (folders0 : List FolderData) : PState × Option PErrK :=
  processFiles create parentId files
    { foldersList := buildIndex folders0, allFolders := folders0,
      calls := [], sleeps := 0 }

/-- A well-behaved creation collaborator: every call succeeds and returns the
    requested name together with a fresh id (`1000 +` the call index). -/
def echoCreate : Create := fun k name _pid => .ok ⟨name, 1000 + k, ""⟩

/-- A collaborator that always raises `FJError` (the always-failing
    provisioning collaborator of the retry-bound claim). -/
def alwaysFail : Create := fun _ _ _ => .err

/-- Invariant of a provisioning run whose initial name→id dict was `m0`,
    with the name-echoing collaborator: the dict's keys are exactly the
    names in the shared folder list, keys of `m0` are never lost, every
    create call so far targeted a name that is now in the dict but was
    absent from `m0`, and no name was created twice. -/
def ProvisionInv (m0 : List (String × Nat)) (st : PState) : Prop :=
  (∀ k, (lookup st.foldersList k).isSome = true ↔
      k ∈ st.allFolders.map FolderData.name) ∧
  (∀ k, (lookup m0 k).isSome = true → (lookup st.foldersList k).isSome = true) ∧
  (∀ nm ∈ st.calls.map Prod.fst,
      (lookup st.foldersList nm).isSome = true ∧ lookup m0 nm = none) ∧
  (st.calls.map Prod.fst).Nodup

/-! ## `FjOperations.delete` (lines 79-105): batch delete, then prune -/

/-- A folder as seen by the prune loop: its id and the `empty` flag computed
    by the single `read_directory_tree` call. -/
structure DelFolder where
  id    : Nat
  empty : Bool
deriving DecidableEq

/-- `empty_dirs`: ids of the folders whose `empty` flag is set
    (`delete`, lines 96-99). -/
def emptyDirsOf (folders : List DelFolder) : List Nat :=
  (folders.filter (fun f => f.empty)).map (fun f => f.id)

/-- The `while True` prune loop of `delete` (lines 95-104).  The `folders`
    list is the one returned by the single `read_directory_tree()` call made
    before the loop (line 94); the loop body never refreshes it.  `fuel`
    bounds the modeled iterations; the returned `Bool` is `true` when the
    loop reached its `break` within the given fuel and `false` when it was
    still running.  The trace collects each `delete_files(empty_dirs)` call. -/
def deleteLoop (folders : List DelFolder) :
    Nat → List (List Nat) → List (List Nat) × Bool
  | fuel, trace =>
    let empty_dirs := emptyDirsOf folders
    if empty_dirs = [] then (trace, true)
    else
      match fuel with
      | 0 => (trace, false)
      | fuel + 1 => deleteLoop folders fuel (trace ++ [empty_dirs])

/-- `FjOperations.delete(file_list)` (lines 79-105): an empty entry list
    returns immediately; otherwise one `delete_files(entry_ids)` batch call,
    one `read_directory_tree()` read (yielding `treeFolders`), then the prune
    loop.  Returns the trace of `delete_files` calls and whether the loop
    terminated within `fuel` iterations. -/
def delete (fileIds : List Nat) (treeFolders : List DelFolder) (fuel : Nat) :
    List (List Nat) × Bool :=
  if fileIds = [] then ([], true)
  else deleteLoop treeFolders fuel [fileIds]

/-! ## `FileJumpApi.read` (lines 310-335): the download loop -/

/-- The streamed response of `get_file`: the declared `content-length`
    header and the chunks yielded by `iter_content` (bytes as naturals). -/
structure Response where
  contentLength : Nat
  chunks        : List (List Nat)
deriving DecidableEq

/-- Result of `FileJumpApi.read`: the blocks written per local file name,
    the percent values reported to the progress callback, and the value of
    `self.cancel` right after the reset at entry (line 318). -/
structure DlResult where
  written        : List (String × List (List Nat))
  progress       : List Nat
  flagAfterEntry : Bool
deriving DecidableEq

/-- The inner `for chunk in response.iter_content(...)` loop (lines 329-335)
    for one file: empty chunks are skipped, every other chunk is written and
    counted, and a percent is reported when a callback is present and the
    declared total is nonzero.  `flagDuring k` is the value the shared
    cancellation flag would have before iteration `k`: it is a parameter so
    the cancellation claim can be stated, but the loop body — like the source
    — never consults it.  (Python's `int(downloaded * 100 / total)` is exact
    natural division here.) -/
def chunkLoop (hasCallback : Bool) (total : Nat) (flagDuring : Nat → Bool) :
    List (List Nat) → Nat → Nat → List (List Nat) × List Nat
  | [], _downloaded, _k => ([], [])
  | chunk :: rest, downloaded, k =>
    if chunk = [] then chunkLoop hasCallback total flagDuring rest downloaded (k + 1)
    else
      let downloaded' := downloaded + chunk.length
      let (ws, ps) := chunkLoop hasCallback total flagDuring rest downloaded' (k + 1)
      (chunk :: ws,
       if hasCallback && total ≠ 0 then downloaded' * 100 / total :: ps else ps)

/-- The `for file in files_list` loop of `FileJumpApi.read` (lines 319-335):
    entries with a falsy id or name are skipped, `get_file`'s `FJError`
    propagates, and each file's content is written at `target_dir/name`
    (abstracted to the name) by the chunk loop. -/
def readFiles (flagDuring : Nat → Bool) (getFile : Nat → Except Unit Response)
    (hasCallback : Bool) :
    List (Option Nat × Option String) →
      Except Unit (List (String × List (List Nat)) × List Nat)
  | [] => .ok ([], [])
  | (entryId, name) :: rest =>
    match entryId, name with
    | some i, some nm =>
      if i = 0 || nm = "" then readFiles flagDuring getFile hasCallback rest
      else
        match getFile i with
        | .error e => .error e
        | .ok resp =>
          let (ws, ps) := chunkLoop hasCallback resp.contentLength flagDuring resp.chunks 0 0
          match readFiles flagDuring getFile hasCallback rest with
          | .error e => .error e
          | .ok r => .ok ((nm, ws) :: r.1, ps ++ r.2)
    | _, _ => readFiles flagDuring getFile hasCallback rest

/-- `FileJumpApi.read` itself: `self.cancel = False` at entry (line 318)
    discards `cancel0`; the loop over the files follows. -/
def api_read (_cancel0 : Bool) (flagDuring : Nat → Bool)
    (getFile : Nat → Except Unit Response) (hasCallback : Bool)
    (files : List (Option Nat × Option String)) : Except Unit DlResult :=
  match readFiles flagDuring getFile hasCallback files with
  | .error e => .error e
  | .ok r => .ok { written := r.1, progress := r.2, flagAfterEntry := false }

/-! ## `FileJumpApi.post_file` (lines 145-217): the upload retry loop -/

/-- Outcome of one HTTP POST to `uploads`, as a function of the attempt
    index and the timeout in force: a response (status code and the result
    of `response.json()`, `none` when decoding raises), a
    `requests.exceptions.Timeout`, or any other exception (which includes
    the `FJError` raised by the progress callback on cancellation). -/
inductive NetOut where
  | resp (status : Nat) (body : Option Nat)
  | timeout
  | exn
deriving DecidableEq

/-- Final outcome of `post_file`.  `cancelled` and `noData` are both
    `return None` in Python; the model keeps their provenance apart. -/
inductive UpOutcome where
  | okData (body : Nat)
  | noData
  | cancelled
  | errTimeout (t : Nat)
  | errExn
  | fuelOut
deriving DecidableEq

/-- Result of `post_file`: the timeouts used by the successive attempts, the
    outcome, and the value of `self.cancel` right after the reset at entry
    (line 150). -/
structure UpResult where
  attempts     : List Nat
  outcome      : UpOutcome
  flagAtEntry  : Bool
deriving DecidableEq

/-- The `while retry` loop of `post_file` (lines 186-211).  A non-201 status
    and a failing `response.json()` raise inside the `try`, landing in the
    generic `except Exception` handler, which returns `None` when
    `self.cancel` is set and raises `FJError` otherwise.  A
    `requests.exceptions.Timeout` raises `FJError` when the timeout already
    exceeds 10000, else multiplies the timeout by 10 and retries.  The loop
    runs at most 3 times from `timeout = 1000` (1000, 10000, 100000), so any
    `fuel ≥ 3` makes the fuel-out branch unreachable from `post_file`. -/
def postLoop (net : Nat → Nat → NetOut) (cancelDuring : Nat → Bool) :
    Nat → Nat → Nat → List Nat → List Nat × UpOutcome
  | 0, _, _, attempts => (attempts, .fuelOut)
  | fuel + 1, timeout, k, attempts =>
    let attempts := attempts ++ [timeout]
    match net k timeout with
    | .timeout =>
      if timeout > 10000 then (attempts, .errTimeout timeout)
      else postLoop net cancelDuring fuel (timeout * 10) (k + 1) attempts
    | .resp status body =>
      if status = 201 then
        match body with
        | some b => (attempts, if b = 0 then .noData else .okData b)
        | none => (attempts, if cancelDuring k then .cancelled else .errExn)
      else (attempts, if cancelDuring k then .cancelled else .errExn)
    | .exn => (attempts, if cancelDuring k then .cancelled else .errExn)

/-- `FileJumpApi.post_file(...)` (lines 145-217): resets `self.cancel` to
    `False` (discarding `cancel0`), then runs the retry loop starting from
    `timeout = 1000`.  The request body (`out_data`) is abstracted to a
    natural number, `0` standing for a falsy `out_data` (the
    `if not out_data: return None` at line 212, modeled as `noData`). -/
def post_file (_cancel0 : Bool) (net : Nat → Nat → NetOut)
    (cancelDuring : Nat → Bool) : UpResult :=
  let r := postLoop net cancelDuring 4 1000 0 []
  { attempts := r.1, outcome := r.2, flagAtEntry := false }

/-- The upload collaborator that always times out. -/
def alwaysTimeout : Nat → Nat → NetOut := fun _ _ => .timeout

/-! ## The fingerprint codec: `json.dumps` / `json.loads` on the
    `description` field (`FjOperations.write.write_file` lines 223-229 and
    `FjOperations.read_directory_tree` lines 270-279) -/

/-- A JSON value.  Numeric literals are kept as their lexemes: none of the
    code under verification ever reads a number out of a description. -/
inductive Json where
  | null
  | bool (b : Bool)
  | num (lexeme : String)
  | str (s : String)
  | arr (elems : List Json)
  | obj (fields : List (String × Json))

/-- Lowercase hexadecimal digit, as produced by `json.dumps`. -/
def hexDig (n : Nat) : Char :=
  if n < 10 then Char.ofNat (48 + n) else Char.ofNat (87 + n)

/-- Four-digit lowercase hex rendering of `n < 0x10000` (`\uXXXX`). -/
def hex4 (n : Nat) : List Char :=
  [hexDig (n / 4096 % 16), hexDig (n / 256 % 16), hexDig (n / 16 % 16), hexDig (n % 16)]

/-- `json.dumps` escaping of one character with the default
    `ensure_ascii=True`: quote and backslash are escaped, the five control
    characters with short escapes use them, every other character outside
    `0x20..0x7E` becomes `\uXXXX` — as a surrogate pair when beyond the
    basic multilingual plane. -/
def escapeChar (c : Char) : List Char :=
  if c = '"' then ['\\', '"']
  else if c = '\\' then ['\\', '\\']
  else if c = '\x08' then ['\\', 'b']
  else if c = '\x0c' then ['\\', 'f']
  else if c = '\n' then ['\\', 'n']
  else if c = '\r' then ['\\', 'r']
  else if c = '\t' then ['\\', 't']
  else if 0x20 ≤ c.toNat ∧ c.toNat ≤ 0x7E then [c]
  else if c.toNat < 0x10000 then '\\' :: 'u' :: hex4 c.toNat
  else
    '\\' :: 'u' :: hex4 (0xD800 + (c.toNat - 0x10000) / 1024) ++
      '\\' :: 'u' :: hex4 (0xDC00 + (c.toNat - 0x10000) % 1024)

/-- Escaping of a whole character list. -/
def escList : List Char → List Char
  | [] => []
  | c :: cs => escapeChar c ++ escList cs

/-- A JSON string literal for `s`, as `json.dumps` renders it. -/
def strLit (s : String) : String :=
  String.mk ('"' :: escList s.data ++ ['"'])

/-- `json.dumps({"SHA256": h, "ctime": c, "utime": m})` with the default
    separators: exactly the payload written to the `description` field by
    `write_file` (lines 223-228).  Keys are emitted in insertion order. -/
def dumps_description (h c m : String) : String :=
  "\x7b\"SHA256\": " ++ strLit h ++ ", \"ctime\": " ++ strLit c ++
    ", \"utime\": " ++ strLit m ++ "\x7d"

/-- JSON whitespace. -/
def isJsonWs (c : Char) : Bool :=
  c = ' ' || c = '\t' || c = '\n' || c = '\r'

/-- Drop leading JSON whitespace. -/
def skipWs : List Char → List Char
  | [] => []
  | c :: cs => if isJsonWs c then skipWs cs else c :: cs

/-- Value of a hexadecimal digit. -/
def hexVal (c : Char) : Option Nat :=
  if '0' ≤ c ∧ c ≤ '9' then some (c.toNat - 48)
  else if 'a' ≤ c ∧ c ≤ 'f' then some (c.toNat - 87)
  else if 'A' ≤ c ∧ c ≤ 'F' then some (c.toNat - 55)
  else none

/-- Combined value of four hex digits. -/
def hex4Val (h1 h2 h3 h4 : Char) : Option Nat :=
  match hexVal h1, hexVal h2, hexVal h3, hexVal h4 with
  | some a, some b, some d, some g => some (a * 4096 + b * 256 + d * 16 + g)
  | _, _, _, _ => none

/-- After a high-surrogate `\uXXXX` escape, the mandatory low-surrogate
    escape; the pair is combined into one character. -/
def parseLowSurrogate (code : Nat) : List Char → Option (Char × List Char)
  | '\\' :: 'u' :: g1 :: g2 :: g3 :: g4 :: cs'' =>
    match hex4Val g1 g2 g3 g4 with
    | none => none
    | some lo =>
      if 0xDC00 ≤ lo ∧ lo ≤ 0xDFFF then
        some (Char.ofNat
          (0x10000 + (code - 0xD800) * 1024 + (lo - 0xDC00)), cs'')
      else none
  | _ => none

/-- The `\uXXXX` escape: four hex digits; a high surrogate must be followed
    by a low-surrogate escape, combined via `parseLowSurrogate`. -/
def parseU : List Char → Option (Char × List Char)
  | h1 :: h2 :: h3 :: h4 :: cs' =>
    match hex4Val h1 h2 h3 h4 with
    | none => none
    | some code =>
      if 0xD800 ≤ code ∧ code ≤ 0xDBFF then parseLowSurrogate code cs'
      else if 0xDC00 ≤ code ∧ code ≤ 0xDFFF then none
      else some (Char.ofNat code, cs')
  | _ => none

/-- Decode one escape sequence, positioned just after the backslash:
    `json.loads` semantics — the short escapes and `\uXXXX`.  One
    divergence from CPython: a lone surrogate escape, which Python would
    keep as an unpaired surrogate code unit, has no `Char` representation
    and is rejected. -/
def parseEsc1 : List Char → Option (Char × List Char)
  | [] => none
  | e :: cs =>
    if e = '"' then some ('"', cs)
    else if e = '\\' then some ('\\', cs)
    else if e = '/' then some ('/', cs)
    else if e = 'b' then some ('\x08', cs)
    else if e = 'f' then some ('\x0c', cs)
    else if e = 'n' then some ('\n', cs)
    else if e = 'r' then some ('\x0d', cs)
    else if e = 't' then some ('\t', cs)
    else if e = 'u' then parseU cs
    else none

/-- Body of a JSON string literal, after the opening quote: characters up
    to the closing quote, with escapes decoded by `parseEsc1` and a
    strict-mode rejection of raw control characters.  `fuel` counts loop
    iterations for termination only: every iteration consumes at least one
    input character, so the `length + 1` budget supplied by `parseStrAux`
    can never run out. -/
def parseStrAuxF : Nat → List Char → List Char → Option (String × List Char)
  | 0, _, _ => none
  | fuel + 1, acc, cs =>
    match cs with
    | [] => none
    | c :: cs1 =>
      if c = '"' then some (String.mk acc.reverse, cs1)
      else if c = '\\' then
        match parseEsc1 cs1 with
        | some (d, cs') => parseStrAuxF fuel (d :: acc) cs'
        | none => none
      else if c.toNat < 0x20 then none
      else parseStrAuxF fuel (c :: acc) cs1

/-- The string-literal body parser with its iteration budget. -/
def parseStrAux (acc cs : List Char) : Option (String × List Char) :=
  parseStrAuxF (cs.length + 1) acc cs

/-- The integer part of a JSON number: `0`, or a nonzero digit followed by
    digits (leading zeros are rejected, as in `json.loads`). -/
def parseIntPart : List Char → Option (List Char × List Char)
  | [] => none
  | c :: rest =>
    if c = '0' then some ([c], rest)
    else if c.isDigit then
      let (ds, r) := rest.span (fun d => d.isDigit)
      some (c :: ds, r)
    else none

/-- A JSON number literal, returned as its lexeme.  (`json.loads` would also
    accept `NaN`/`Infinity`; descriptions never contain them and they are
    omitted.) -/
def parseNumber (cs : List Char) : Option (String × List Char) :=
  let (sgn, cs1) := match cs with | '-' :: r => (['-'], r) | _ => ([], cs)
  match parseIntPart cs1 with
  | none => none
  | some (ip, cs2) =>
    let fr : Option (List Char × List Char) :=
      match cs2 with
      | '.' :: r =>
        match r.span (fun d => d.isDigit) with
        | ([], _) => none
        | (ds, r2) => some ('.' :: ds, r2)
      | _ => some ([], cs2)
    match fr with
    | none => none
    | some (fp, cs3) =>
      let ex : Option (List Char × List Char) :=
        match cs3 with
        | e :: r =>
          if e == 'e' || e == 'E' then
            let (sg, r1) :=
              match r with
              | '+' :: rr => (['+'], rr)
              | '-' :: rr => (['-'], rr)
              | _ => ([], r)
            match r1.span (fun d => d.isDigit) with
            | ([], _) => none
            | (ds, r2) => some (e :: (sg ++ ds), r2)
          else some ([], cs3)
        | [] => some ([], cs3)
      match ex with
      | none => none
      | some (ep, cs4) => some (String.mk (sgn ++ ip ++ fp ++ ep), cs4)

/-- First match in a parsed object's field list (keys are unique, see
    `insertField`). -/
def lookupField : List (String × Json) → String → Option Json
  | [], _ => none
  | (k, v) :: rest, key => if k = key then some v else lookupField rest key

/-- `dict` insertion while parsing an object: a duplicate key overrides the
    earlier value in place, as `json.loads` does. -/
def insertField : List (String × Json) → String → Json → List (String × Json)
  | [], k, v => [(k, v)]
  | (k', v') :: rest, k, v =>
    if k' = k then (k, v) :: rest else (k', v') :: insertField rest k v

mutual

/-- One JSON value, `json.loads` grammar.  `fuel` decreases at each
    recursive step and bounds nesting; `parseJson` supplies one unit per
    input character plus one, which no parse of a value can exhaust (every
    recursive step consumes input). -/
def parseValue : Nat → List Char → Option (Json × List Char)
  | 0, _ => none
  | fuel + 1, cs =>
    match skipWs cs with
    | [] => none
    | c :: cs' =>
      if c = '{' then
        match skipWs cs' with
        | '}' :: rest => some (.obj [], rest)
        | cs2 => parseMembers fuel cs2 []
      else if c = '[' then
        match skipWs cs' with
        | ']' :: rest => some (.arr [], rest)
        | cs2 => parseElems fuel cs2 []
      else if c = '"' then
        match parseStrAux [] cs' with
        | some (s, rest) => some (.str s, rest)
        | none => none
      else if c = 't' then
        match cs' with
        | 'r' :: 'u' :: 'e' :: rest => some (.bool true, rest)
        | _ => none
      else if c = 'f' then
        match cs' with
        | 'a' :: 'l' :: 's' :: 'e' :: rest => some (.bool false, rest)
        | _ => none
      else if c = 'n' then
        match cs' with
        | 'u' :: 'l' :: 'l' :: rest => some (.null, rest)
        | _ => none
      else
        match parseNumber (c :: cs') with
        | some (lex, rest) => some (.num lex, rest)
        | none => none

/-- The members of an object, positioned at the start of the first (or next)
    member. -/
def parseMembers : Nat → List Char → List (String × Json) → Option (Json × List Char)
  | 0, _, _ => none
  | fuel + 1, cs, acc =>
    match skipWs cs with
    | '"' :: cs1 =>
      match parseStrAux [] cs1 with
      | some (key, cs2) =>
        match skipWs cs2 with
        | ':' :: cs3 =>
          match parseValue fuel cs3 with
          | some (v, cs4) =>
            let acc' := insertField acc key v
            match skipWs cs4 with
            | ',' :: cs5 => parseMembers fuel cs5 acc'
            | '}' :: cs5 => some (.obj acc', cs5)
            | _ => none
          | none => none
        | _ => none
      | none => none
    | _ => none

/-- The elements of an array, positioned at the start of the next element. -/
def parseElems : Nat → List Char → List Json → Option (Json × List Char)
  | 0, _, _ => none
  | fuel + 1, cs, acc =>
    match parseValue fuel cs with
    | some (v, cs2) =>
      match skipWs cs2 with
      | ',' :: cs3 => parseElems fuel cs3 (acc ++ [v])
      | ']' :: cs3 => some (.arr (acc ++ [v]), cs3)
      | _ => none
    | none => none

end

/-- `json.loads(s)`: parse one value, allow trailing whitespace, require the
    whole input consumed; anything else raises `JSONDecodeError`, modeled as
    `none`. -/
def parseJson (s : String) : Option Json :=
  match parseValue (s.length + 1) s.data with
  | some (v, rest) => if skipWs rest = [] then some v else none
  | none => none

/-- `desc_json.get(key, "")` on a parsed object. -/
def jget (fields : List (String × Json)) (key : String) : Json :=
  match lookupField fields key with
  | some v => v
  | none => .str ""

/-- The description-decoding block of `read_directory_tree` (lines 270-279):
    `sha256` starts empty and `ctime`/`mtime` start at the service values;
    a non-empty description is parsed, and when it yields a `dict` all three
    are overwritten by `.get(..., "")`; any exception (a parse failure, or
    `.get` on a non-dict) is swallowed, leaving the initial values.
    Returns `(ctime, mtime, sha256)`. -/
def decode_description (ctime0 mtime0 : Json) (desc : String) :
    Json × Json × Json :=
  if desc = "" then (ctime0, mtime0, .str "")
  else
    match parseJson desc with
    | some (.obj fields) =>
      (jget fields "ctime", jget fields "utime", jget fields "SHA256")
    | _ => (ctime0, mtime0, .str "")

/-! ## `FjOperations.read_directory_tree` (lines 243-294): record emission -/

/-- One raw entry of the lazily cached `all_fj_entries`/`all_fj_folders`
    lists, with the fields `read_directory_tree` reads: id, name, `type`,
    the slash-delimited ancestor-id `path`, the service timestamps, the file
    size and the free-text `description`. -/
structure RemoteEntry where
  id          : Nat
  name        : String
  typ         : String
  path        : String
  created_at  : String
  updated_at  : String
  file_size   : Nat
  description : String

/-- The record `entry_to_add` built for each emitted entry (lines 280-289).
    `ctime`, `mtime` and `sha256` are JSON values: the description decode
    can place arbitrary JSON there. -/
structure OutRecord where
  path   : String
  ppath  : String
  name   : String
  ctime  : Json
  mtime  : Json
  size   : Nat
  sha256 : Json
  id     : Nat

/-- Digit-run accumulator for `pyInt`. -/
def pyIntAux : List Char → Nat → Option Nat
  | [], acc => some acc
  | c :: cs, acc =>
    if c.isDigit then pyIntAux cs (acc * 10 + (c.toNat - 48)) else none

/-- Python `int(s)` for the nonnegative ancestor-id strings the service
    reports: the value of a nonempty all-digit string, `ValueError` (`none`)
    otherwise.  (Python would additionally accept a sign, surrounding
    whitespace and underscores; id chains contain none of those.) -/
def pyInt (s : String) : Option Nat :=
  match s.data with
  | [] => none
  | cs => pyIntAux cs 0

/-- First match in the int-keyed folder dict. -/
def lookupNat : List (Nat × String) → Nat → Option String
  | [], _ => none
  | (k, v) :: rest, key => if k = key then some v else lookupNat rest key

/-- `dict` assignment for the int-keyed folder dict. -/
def insertNat : List (Nat × String) → Nat → String → List (Nat × String)
  | [], k, v => [(k, v)]
  | (k', v') :: rest, k, v =>
    if k' = k then (k, v) :: rest else (k', v') :: insertNat rest k v

/-- `dj_all_folders = {int(item["id"]): item["name"] for item in
    self.all_fj_folders}` (line 252). -/
def buildDj (folders : List RemoteEntry) : List (Nat × String) :=
  folders.foldl (fun m e => insertNat m e.id e.name) []

/-- The `ppath` computation (lines 256-265): every segment of the entry's
    ancestor-id chain other than the entry's own id is replaced by the
    folder name `dj_all_folders[int(seg)]` when known, kept verbatim
    otherwise, the entry's name is appended, and the pieces are joined with
    backslashes.  Python's `int(_e)` raises `ValueError` on a non-numeric
    segment (modeled with `String.toNat?`, which accepts the plain digit
    strings the service produces). -/
def entryPPath (dj : List (Nat × String)) (entry : RemoteEntry) :
    Except String String :=
  let segs := splitChar '/' entry.path
  match
    segs.foldl
      (fun (acc : Except String (List String)) e =>
        match acc with
        | .error err => .error err
        | .ok pp =>
          if e = toString entry.id then .ok pp
          else
            match pyInt e with
            | some n =>
              match lookupNat dj n with
              | some nm => .ok (pp ++ [nm])
              | none => .ok (pp ++ [e])
            | none => .error "ValueError")
      (Except.ok ([] : List String)) with
  | .error err => .error err
  | .ok pp => .ok (String.intercalate "\\" (pp ++ [entry.name]))

/-- Lines 255-289 for one entry: the record combining raw path, translated
    `ppath`, name, the decoded description (service timestamps and empty
    hash as the pre-decode values), size and id. -/
def buildRecord (dj : List (Nat × String)) (entry : RemoteEntry) :
    Except String OutRecord :=
  match entryPPath dj entry with
  | .error err => .error err
  | .ok ppath =>
    match decode_description (.str entry.created_at) (.str entry.updated_at)
        entry.description with
    | (ctime, mtime, sha256) =>
      .ok { path := entry.path, ppath := ppath, name := entry.name,
            ctime := ctime, mtime := mtime, size := entry.file_size,
            sha256 := sha256, id := entry.id }

/-- The filter of line 254: `local_path == "0" or local_path in
    entry.get('path').split("/")`; the callers pass `None` or `"0"`, and
    `None in [...]` is `False`. -/
def entrySelected (localPath : Option String) (entry : RemoteEntry) : Bool :=
  localPath = some "0" ||
    (match localPath with
     | some lp => decide (lp ∈ splitChar '/' entry.path)
     | none => false)

/-- `FjOperations.read_directory_tree(local_path)` (lines 243-294): builds
    the int→name folder dict, then for every cached entry passing the filter
    emits a record, into the file list when `type != 'folder'` and into the
    folder list otherwise. -/
def read_directory_tree (allEntries allFolders : List RemoteEntry)
    (localPath : Option String) :
    Except String (List OutRecord × List OutRecord) :=
  let dj := buildDj allFolders
  allEntries.foldl
    (fun acc entry =>
      match acc with
      | .error err => .error err
      | .ok (es, fs) =>
        if entrySelected localPath entry then
          match buildRecord dj entry with
          | .error err => .error err
          | .ok r =>
            if entry.typ ≠ "folder" then .ok (es ++ [r], fs)
            else .ok (es, fs ++ [r])
        else .ok (es, fs))
    (.ok ([], []))

/-! ## Helper lemmas -/

theorem emptyDirsOf_ne_nil {folders : List DelFolder}
    (h : ∃ f ∈ folders, f.empty = true) : emptyDirsOf folders ≠ [] := by
  obtain ⟨f, hf, he⟩ := h
  have : f.id ∈ emptyDirsOf folders :=
    List.mem_map_of_mem _ (List.mem_filter.2 ⟨hf, by simp [he]⟩)
  exact List.ne_nil_of_mem this

theorem deleteLoop_stuck {folders : List DelFolder}
    (h : emptyDirsOf folders ≠ []) :
    ∀ fuel trace, (deleteLoop folders fuel trace).2 = false := by
  intro fuel
  induction fuel with
  | zero => intro trace; simp [deleteLoop, h]
  | succ n ih => intro trace; simp only [deleteLoop, h, if_neg h]; exact ih _

theorem chunkLoop_flag_irrel (hcb : Bool) (total : Nat) (f f' : Nat → Bool) :
    ∀ chunks d k, chunkLoop hcb total f chunks d k = chunkLoop hcb total f' chunks d k := by
  intro chunks
  induction chunks with
  | nil => intro d k; rfl
  | cons c rest ih =>
    intro d k
    simp only [chunkLoop]
    by_cases hc : c = [] <;> simp [hc, ih]

theorem readFiles_flag_irrel (f f' : Nat → Bool) (g : Nat → Except Unit Response)
    (hcb : Bool) :
    ∀ files, readFiles f g hcb files = readFiles f' g hcb files := by
  intro files
  induction files with
  | nil => rfl
  | cons p rest ih =>
    obtain ⟨entryId, name⟩ := p
    cases entryId with
    | none => simpa [readFiles] using ih
    | some i =>
      cases name with
      | none => simpa [readFiles] using ih
      | some nm =>
        simp only [readFiles]
        by_cases h0 : (i = 0 || nm = "") = true
        · simp [h0, ih]
        · simp only [h0, if_false, Bool.false_eq_true]
          cases g i with
          | error e => rfl
          | ok resp =>
            simp only [chunkLoop_flag_irrel hcb resp.contentLength f f', ih]

theorem chunkLoop_written (hcb : Bool) (total : Nat) (f : Nat → Bool) :
    ∀ chunks d k,
      (chunkLoop hcb total f chunks d k).1 =
        chunks.filter (fun c => decide (c ≠ [])) := by
  intro chunks
  induction chunks with
  | nil => intro d k; rfl
  | cons c rest ih =>
    intro d k
    simp only [chunkLoop, List.filter_cons]
    by_cases hc : c = [] <;> simp [hc, ih]

theorem ljust_length {s : String} (w : Nat) (fill : Char) (h : s.length ≤ w) :
    (ljust s w fill).length = w := by
  simp only [ljust, String.length_append]
  have hm : (String.mk (List.replicate (w - s.length) fill)).length =
      w - s.length := by
    show (List.replicate (w - s.length) fill).length = w - s.length
    exact List.length_replicate _ _
  omega

theorem lookup_insertD_self (m : List (String × Nat)) (k : String) (v : Nat) :
    lookup (insertD m k v) k = some v := by
  induction m with
  | nil => simp [insertD, lookup]
  | cons p rest ih =>
    obtain ⟨k', v'⟩ := p
    by_cases h : k' = k
    · simp [insertD, h, lookup]
    · simp [insertD, h, lookup, ih]

theorem lookup_insertD_ne (m : List (String × Nat)) {k k' : String} (v : Nat)
    (h : k' ≠ k) : lookup (insertD m k v) k' = lookup m k' := by
  induction m with
  | nil => simp [insertD, lookup, Ne.symm h]
  | cons p rest ih =>
    obtain ⟨a, b⟩ := p
    by_cases ha : a = k
    · subst ha
      simp [insertD, lookup, Ne.symm h]
    · simp only [insertD, if_neg ha, lookup]
      by_cases hk' : a = k'
      · simp [hk']
      · simp [hk', ih]

theorem isSome_lookup_insertD (m : List (String × Nat)) (k k' : String) (v : Nat) :
    (lookup (insertD m k v) k').isSome = true ↔
      k' = k ∨ (lookup m k').isSome = true := by
  by_cases h : k' = k
  · subst h; simp [lookup_insertD_self]
  · rw [lookup_insertD_ne m v h]; simp [h]

theorem decode_description_not_obj (c0 m0 : Json) (desc : String)
    (h : ∀ fields, parseJson desc ≠ some (.obj fields)) :
    decode_description c0 m0 desc = (c0, m0, .str "") := by
  by_cases hd : desc = ""
  · simp [decode_description, hd]
  · cases hpj : parseJson desc with
    | none => simp [decode_description, hd, hpj]
    | some v =>
      cases v with
      | obj fields => exact absurd hpj (h fields)
      | null => simp [decode_description, hd, hpj]
      | bool b => simp [decode_description, hd, hpj]
      | num l => simp [decode_description, hd, hpj]
      | str s => simp [decode_description, hd, hpj]
      | arr xs => simp [decode_description, hd, hpj]

theorem createLoopF_echo (folder : String) (pid : Nat) (st : PState) :
    createLoopF echoCreate folder pid 0 7 st =
      ({ st with calls := st.calls ++ [(folder, pid)] },
       .got ⟨folder, 1000 + st.calls.length, ""⟩) :=
  rfl

theorem processSegment_skip (create : Create) (pathList : List String)
    (parentId : String) (i : Nat) (st : PState)
    (h : (lookup st.foldersList (mangle (pathList.getD i ""))).isSome = true) :
    processSegment create pathList parentId i st = (st, none) := by
  simp only [List.getD, List.get?_eq_getElem?] at h
  simp [processSegment, List.getD, List.get?_eq_getElem?, h]

theorem processSegment_create (pathList : List String) (parentId : String)
    (i : Nat) (st : PState) (pid : Nat)
    (hnot : lookup st.foldersList (mangle (pathList.getD i "")) = none)
    (hpar : lookup st.foldersList
        (ljust (if i > 0 then pathList.getD (i - 1) "" else parentId) 3 '_') =
      some pid) :
    processSegment echoCreate pathList parentId i st =
      ({ foldersList :=
           insertD st.foldersList (mangle (pathList.getD i ""))
             (1000 + st.calls.length),
         allFolders := st.allFolders ++
           [⟨mangle (pathList.getD i ""), 1000 + st.calls.length,
             String.intercalate "\\" (pathList.take (i + 1))⟩],
         calls := st.calls ++ [(mangle (pathList.getD i ""), pid)],
         sleeps := st.sleeps }, none) := by
  simp only [List.getD, List.get?_eq_getElem?] at hnot hpar ⊢
  simp [processSegment, List.getD, List.get?_eq_getElem?, hnot, hpar, createLoopF_echo]

theorem lookup_foldl_insertD_isSome (fs : List FolderData) :
    ∀ (m0 : List (String × Nat)) (k : String),
      (lookup (fs.foldl (fun m fd => insertD m fd.name fd.id) m0) k).isSome = true ↔
        k ∈ fs.map FolderData.name ∨ (lookup m0 k).isSome = true := by
  induction fs with
  | nil => intro m0 k; simp
  | cons fd rest ih =>
    intro m0 k
    simp only [List.foldl_cons, List.map_cons, List.mem_cons]
    rw [ih, isSome_lookup_insertD]
    tauto

theorem lookup_buildIndex_isSome (fs : List FolderData) (k : String) :
    (lookup (buildIndex fs) k).isSome = true ↔ k ∈ fs.map FolderData.name := by
  rw [buildIndex, lookup_foldl_insertD_isSome]
  simp [lookup]

theorem processSegment_inv (pathList : List String) (parentId : String)
    (i : Nat) (m0 : List (String × Nat)) (st st' : PState)
    (hrun : processSegment echoCreate pathList parentId i st = (st', none))
    (hinv : ProvisionInv m0 st) :
    ProvisionInv m0 st' ∧
    (∀ k, (lookup st.foldersList k).isSome = true →
        (lookup st'.foldersList k).isSome = true) ∧
    (lookup st'.foldersList (mangle (pathList.getD i ""))).isSome = true := by
  by_cases hf : (lookup st.foldersList (mangle (pathList.getD i ""))).isSome = true
  · rw [processSegment_skip _ _ _ _ _ hf] at hrun
    obtain ⟨h1, -⟩ := Prod.mk.injEq .. ▸ hrun
    rw [← h1]
    exact ⟨hinv, fun k h => h, hf⟩
  · have hnot : lookup st.foldersList (mangle (pathList.getD i "")) = none := by
      cases hl : lookup st.foldersList (mangle (pathList.getD i "")) with
      | none => rfl
      | some v => rw [hl] at hf; simp at hf
    cases hpar : lookup st.foldersList
        (ljust (if i > 0 then pathList.getD (i - 1) "" else parentId) 3 '_') with
    | none =>
      exfalso
      have : processSegment echoCreate pathList parentId i st =
          (st, some (.keyError
            (ljust (if i > 0 then pathList.getD (i - 1) "" else parentId) 3 '_'))) := by
        simp only [List.getD, List.get?_eq_getElem?] at hnot hpar
        simp [processSegment, List.getD, List.get?_eq_getElem?, hnot, hpar]
      rw [this] at hrun
      exact Option.noConfusion (congrArg Prod.snd hrun)
    | some pid =>
      rw [processSegment_create _ _ _ _ pid hnot hpar] at hrun
      obtain ⟨h1, -⟩ := Prod.mk.injEq .. ▸ hrun
      rw [← h1]
      obtain ⟨hkeys, hm0, hcalls, hnd⟩ := hinv
      have hm0none : lookup m0 (mangle (pathList.getD i "")) = none := by
        cases hm : lookup m0 (mangle (pathList.getD i "")) with
        | none => rfl
        | some v =>
          have hsm := hm0 _ (by rw [hm]; rfl)
          rw [hnot] at hsm; simp at hsm
      refine ⟨⟨?_, ?_, ?_, ?_⟩, ?_, ?_⟩
      · intro k
        simp only [List.map_append, List.map_cons, List.map_nil, List.mem_append,
          List.mem_singleton]
        rw [isSome_lookup_insertD, hkeys]
        tauto
      · intro k hk
        rw [isSome_lookup_insertD]
        exact Or.inr (hm0 k hk)
      · intro nm hnm
        simp only [List.map_append, List.map_cons, List.map_nil, List.mem_append,
          List.mem_singleton] at hnm
        cases hnm with
        | inl hold =>
          obtain ⟨ha, hb⟩ := hcalls nm hold
          exact ⟨by rw [isSome_lookup_insertD]; exact Or.inr ha, hb⟩
        | inr hnew =>
          subst hnew
          exact ⟨by rw [isSome_lookup_insertD]; exact Or.inl rfl, hm0none⟩
      · simp only [List.map_append, List.map_cons, List.map_nil]
        rw [List.nodup_append]
        refine ⟨hnd, List.nodup_singleton _, ?_⟩
        intro a ha hb
        simp only [List.mem_singleton] at hb
        obtain ⟨hs, -⟩ := hcalls a ha
        rw [hb, hnot] at hs
        simp at hs
      · intro k hk
        rw [isSome_lookup_insertD]
        exact Or.inr hk
      · rw [isSome_lookup_insertD]
        exact Or.inl rfl

theorem processSegs_inv (pathList : List String) (parentId : String)
    (m0 : List (String × Nat)) :
    ∀ (idxs : List Nat) (st st' : PState),
      processSegs echoCreate pathList parentId idxs st = (st', none) →
      ProvisionInv m0 st →
      ProvisionInv m0 st' ∧
      (∀ k, (lookup st.foldersList k).isSome = true →
          (lookup st'.foldersList k).isSome = true) ∧
      (∀ i ∈ idxs,
        (lookup st'.foldersList (mangle (pathList.getD i ""))).isSome = true) := by
  intro idxs
  induction idxs with
  | nil =>
    intro st st' hrun hinv
    obtain ⟨h1, -⟩ := Prod.mk.injEq .. ▸ hrun
    rw [← h1]
    exact ⟨hinv, fun k h => h, by simp⟩
  | cons i rest ih =>
    intro st st' hrun hinv
    simp only [processSegs] at hrun
    cases hps : processSegment echoCreate pathList parentId i st with
    | mk st1 e1 =>
      rw [hps] at hrun
      cases e1 with
      | some e =>
        exact absurd (congrArg Prod.snd hrun) (by simp)
      | none =>
        obtain ⟨hinv1, hmono1, hpres1⟩ :=
          processSegment_inv pathList parentId i m0 st st1 hps hinv
        obtain ⟨hinv2, hmono2, hpres2⟩ := ih st1 st' hrun hinv1
        refine ⟨hinv2, fun k hk => hmono2 k (hmono1 k hk), ?_⟩
        intro j hj
        cases List.mem_cons.1 hj with
        | inl hji => rw [hji]; exact hmono2 _ hpres1
        | inr hjr => exact hpres2 j hjr

theorem processFiles_inv (parentId : String) (m0 : List (String × Nat)) :
    ∀ (files : List String) (st st' : PState),
      processFiles echoCreate parentId files st = (st', none) →
      ProvisionInv m0 st →
      ProvisionInv m0 st' ∧
      (∀ k, (lookup st.foldersList k).isSome = true →
          (lookup st'.foldersList k).isSome = true) ∧
      (∀ p ∈ files, ∀ i ∈ List.range (splitChar '\\' p).length,
        (lookup st'.foldersList
          (mangle ((splitChar '\\' p).getD i ""))).isSome = true) := by
  intro files
  induction files with
  | nil =>
    intro st st' hrun hinv
    obtain ⟨h1, -⟩ := Prod.mk.injEq .. ▸ hrun
    rw [← h1]
    exact ⟨hinv, fun k h => h, by simp⟩
  | cons p rest ih =>
    intro st st' hrun hinv
    simp only [processFiles] at hrun
    cases hps : processSegs echoCreate (splitChar '\\' p) parentId
        (List.range (splitChar '\\' p).length) st with
    | mk st1 e1 =>
      rw [hps] at hrun
      cases e1 with
      | some e =>
        exact absurd (congrArg Prod.snd hrun) (by simp)
      | none =>
        obtain ⟨hinv1, hmono1, hpres1⟩ :=
          processSegs_inv (splitChar '\\' p) parentId m0 _ st st1 hps hinv
        obtain ⟨hinv2, hmono2, hpres2⟩ := ih st1 st' hrun hinv1
        refine ⟨hinv2, fun k hk => hmono2 k (hmono1 k hk), ?_⟩
        intro q hq i hi
        cases List.mem_cons.1 hq with
        | inl hqp => rw [hqp]; exact hmono2 _ (hpres1 i (hqp ▸ hi))
        | inr hqr => exact hpres2 q hqr i hi

theorem hexVal_hexDig (d : Nat) (hd : d < 16) : hexVal (hexDig d) = some d := by
  interval_cases d <;> rfl

theorem hex4Val_hex4 (n : Nat) (hn : n < 65536) :
    hex4Val (hexDig (n / 4096 % 16)) (hexDig (n / 256 % 16))
      (hexDig (n / 16 % 16)) (hexDig (n % 16)) = some n := by
  have e1 := hexVal_hexDig (n / 4096 % 16) (Nat.mod_lt _ (by norm_num))
  have e2 := hexVal_hexDig (n / 256 % 16) (Nat.mod_lt _ (by norm_num))
  have e3 := hexVal_hexDig (n / 16 % 16) (Nat.mod_lt _ (by norm_num))
  have e4 := hexVal_hexDig (n % 16) (Nat.mod_lt _ (by norm_num))
  simp only [hex4Val, e1, e2, e3, e4, Option.some.injEq]
  omega

theorem parseStrAuxF_quote (fuel : Nat) (acc cs : List Char) :
    parseStrAuxF (fuel + 1) acc ('"' :: cs) =
      some (String.mk acc.reverse, cs) := by
  simp [parseStrAuxF]

theorem parseStrAuxF_esc (fuel : Nat) (acc cs : List Char) (d : Char)
    (cs' : List Char) (h : parseEsc1 cs = some (d, cs')) :
    parseStrAuxF (fuel + 1) acc ('\\' :: cs) =
      parseStrAuxF fuel (d :: acc) cs' := by
  simp [parseStrAuxF, h]

theorem parseStrAuxF_plain (fuel : Nat) (acc : List Char) (c : Char)
    (cs : List Char) (h1 : ¬ c = '"') (h2 : ¬ c = '\\')
    (h3 : ¬ c.toNat < 0x20) :
    parseStrAuxF (fuel + 1) acc (c :: cs) =
      parseStrAuxF fuel (c :: acc) cs := by
  simp [parseStrAuxF, h1, h2, h3]

theorem parseEsc1_u (cs : List Char) : parseEsc1 ('u' :: cs) = parseU cs := by
  simp [parseEsc1]

theorem parseU_unicode (n : Nat) (hn : n < 65536)
    (h1 : ¬(0xD800 ≤ n ∧ n ≤ 0xDBFF)) (h2 : ¬(0xDC00 ≤ n ∧ n ≤ 0xDFFF))
    (tail : List Char) :
    parseU (hex4 n ++ tail) = some (Char.ofNat n, tail) := by
  have hval := hex4Val_hex4 n hn
  simp only [hex4, List.cons_append, List.nil_append]
  simp only [parseU, hval]
  rw [if_neg h1, if_neg h2]

theorem parseEsc1_unicode (n : Nat) (hn : n < 65536)
    (h1 : ¬(0xD800 ≤ n ∧ n ≤ 0xDBFF)) (h2 : ¬(0xDC00 ≤ n ∧ n ≤ 0xDFFF))
    (tail : List Char) :
    parseEsc1 ('u' :: (hex4 n ++ tail)) = some (Char.ofNat n, tail) := by
  rw [parseEsc1_u]
  exact parseU_unicode n hn h1 h2 tail

theorem parseU_high (a : Nat) (tail : List Char)
    (hs : 0xD800 ≤ a ∧ a ≤ 0xDBFF) :
    parseU (hex4 a ++ tail) = parseLowSurrogate a tail := by
  have hval1 := hex4Val_hex4 a (by omega)
  simp only [hex4, List.cons_append, List.nil_append]
  simp only [parseU, hval1]
  rw [if_pos hs]

theorem parseLowSurrogate_ok (code b : Nat) (hb : b < 65536)
    (hr : 0xDC00 ≤ b ∧ b ≤ 0xDFFF) (tail : List Char) :
    parseLowSurrogate code ('\\' :: 'u' :: (hex4 b ++ tail)) =
      some (Char.ofNat (0x10000 + (code - 0xD800) * 1024 + (b - 0xDC00)), tail) := by
  have hval := hex4Val_hex4 b hb
  simp only [hex4, List.cons_append, List.nil_append]
  simp only [parseLowSurrogate, hval]
  rw [if_pos hr]

theorem parseU_astral (n : Nat) (hlo : 0x10000 ≤ n) (hhi : n < 0x110000)
    (tail : List Char) :
    parseU (hex4 (0xD800 + (n - 0x10000) / 1024) ++
        ('\\' :: 'u' :: (hex4 (0xDC00 + (n - 0x10000) % 1024) ++ tail))) =
      some (Char.ofNat n, tail) := by
  generalize ha : 0xD800 + (n - 0x10000) / 1024 = a
  generalize hb : 0xDC00 + (n - 0x10000) % 1024 = b
  rw [parseU_high a _ (by omega), parseLowSurrogate_ok a b (by omega) (by omega)]
  rw [show 0x10000 + (a - 0xD800) * 1024 + (b - 0xDC00) = n from by omega]

theorem parseEsc1_astral (n : Nat) (hlo : 0x10000 ≤ n) (hhi : n < 0x110000)
    (tail : List Char) :
    parseEsc1 ('u' :: (hex4 (0xD800 + (n - 0x10000) / 1024) ++
        ('\\' :: 'u' :: (hex4 (0xDC00 + (n - 0x10000) % 1024) ++ tail)))) =
      some (Char.ofNat n, tail) := by
  rw [parseEsc1_u]
  exact parseU_astral n hlo hhi tail

theorem escapeChar_length_pos (c : Char) : 1 ≤ (escapeChar c).length := by
  unfold escapeChar
  repeat' split
  all_goals simp [hex4]

theorem escList_length_ge (s : List Char) : s.length ≤ (escList s).length := by
  induction s with
  | nil => simp [escList]
  | cons c cs ih =>
    rw [show escList (c :: cs) = escapeChar c ++ escList cs from rfl]
    simp only [List.length_append, List.length_cons]
    have := escapeChar_length_pos c
    omega

theorem parseStrAuxF_escapeChar (ch : Char) (fuel : Nat) (acc tail : List Char) :
    parseStrAuxF (fuel + 1) acc (escapeChar ch ++ tail) =
      parseStrAuxF fuel (ch :: acc) tail := by
  have hv : Nat.isValidChar ch.toNat := ch.valid
  by_cases h1 : ch = '"'
  · subst h1
    rw [show escapeChar '"' ++ tail = '\\' :: ('"' :: tail) from rfl,
        parseStrAuxF_esc _ _ _ '"' tail (by simp [parseEsc1])]
  by_cases h2 : ch = '\\'
  · subst h2
    rw [show escapeChar '\\' ++ tail = '\\' :: ('\\' :: tail) from rfl,
        parseStrAuxF_esc _ _ _ '\\' tail (by simp [parseEsc1])]
  by_cases h3 : ch = '\x08'
  · subst h3
    rw [show escapeChar '\x08' ++ tail = '\\' :: ('b' :: tail) from rfl,
        parseStrAuxF_esc _ _ _ '\x08' tail (by simp [parseEsc1])]
  by_cases h4 : ch = '\x0c'
  · subst h4
    rw [show escapeChar '\x0c' ++ tail = '\\' :: ('f' :: tail) from rfl,
        parseStrAuxF_esc _ _ _ '\x0c' tail (by simp [parseEsc1])]
  by_cases h5 : ch = '\n'
  · subst h5
    rw [show escapeChar '\n' ++ tail = '\\' :: ('n' :: tail) from rfl,
        parseStrAuxF_esc _ _ _ '\n' tail (by simp [parseEsc1])]
  by_cases h6 : ch = '\r'
  · subst h6
    rw [show escapeChar '\r' ++ tail = '\\' :: ('r' :: tail) from rfl,
        parseStrAuxF_esc _ _ _ '\r' tail (by simp [parseEsc1])]
  by_cases h7 : ch = '\t'
  · subst h7
    rw [show escapeChar '\t' ++ tail = '\\' :: ('t' :: tail) from rfl,
        parseStrAuxF_esc _ _ _ '\t' tail (by simp [parseEsc1])]
  by_cases h8 : 0x20 ≤ ch.toNat ∧ ch.toNat ≤ 0x7E
  · have hesc : escapeChar ch = [ch] := by
      simp [escapeChar, h1, h2, h3, h4, h5, h6, h7, h8]
    rw [hesc]
    exact parseStrAuxF_plain fuel acc ch tail h1 h2 (by omega)
  · have hsur : ¬(0xD800 ≤ ch.toNat ∧ ch.toNat ≤ 0xDBFF) ∧
        ¬(0xDC00 ≤ ch.toNat ∧ ch.toNat ≤ 0xDFFF) := by
      rcases hv with hlt | ⟨hgt, hmax⟩ <;> omega
    by_cases h9 : ch.toNat < 0x10000
    · have hesc : escapeChar ch ++ tail =
          '\\' :: ('u' :: (hex4 ch.toNat ++ tail)) := by
        simp [escapeChar, h1, h2, h3, h4, h5, h6, h7, h8, h9]
      rw [hesc,
          parseStrAuxF_esc _ _ _ _ _
            (parseEsc1_unicode ch.toNat h9 hsur.1 hsur.2 tail),
          Char.ofNat_toNat]
    · have hbig : 0x10000 ≤ ch.toNat := by omega
      have hmax : ch.toNat < 0x110000 := by
        rcases hv with hlt | ⟨-, hm⟩ <;> omega
      have hesc : escapeChar ch ++ tail =
          '\\' :: ('u' :: (hex4 (0xD800 + (ch.toNat - 0x10000) / 1024) ++
            ('\\' :: 'u' ::
              (hex4 (0xDC00 + (ch.toNat - 0x10000) % 1024) ++ tail)))) := by
        simp [escapeChar, h1, h2, h3, h4, h5, h6, h7, h8, h9, List.append_assoc]
      rw [hesc,
          parseStrAuxF_esc _ _ _ _ _
            (parseEsc1_astral ch.toNat hbig hmax tail),
          Char.ofNat_toNat]

theorem parseStrAuxF_escList (s : List Char) :
    ∀ (fuel : Nat) (acc tail : List Char),
      parseStrAuxF (s.length + fuel) acc (escList s ++ tail) =
        parseStrAuxF fuel (s.reverse ++ acc) tail := by
  induction s with
  | nil => intro fuel acc tail; simp [escList]
  | cons c cs ih =>
    intro fuel acc tail
    rw [show escList (c :: cs) = escapeChar c ++ escList cs from rfl,
        List.append_assoc,
        show (c :: cs).length + fuel = (cs.length + fuel) + 1 by
          simp [List.length_cons]; omega,
        parseStrAuxF_escapeChar, ih]
    simp

theorem parseStrAux_lit (s : String) (rest : List Char) :
    parseStrAux [] (escList s.data ++ ('"' :: rest)) = some (s, rest) := by
  have hge := escList_length_ge s.data
  have hlen : (escList s.data ++ ('"' :: rest)).length + 1 =
      s.data.length +
        (((escList s.data).length - s.data.length) + rest.length + 2) := by
    simp only [List.length_append, List.length_cons]
    omega
  rw [parseStrAux, hlen,
      show (((escList s.data).length - s.data.length) + rest.length + 2) =
        (((escList s.data).length - s.data.length) + rest.length + 1) + 1
        from rfl,
      parseStrAuxF_escList s.data _ [] ('"' :: rest), parseStrAuxF_quote]
  simp only [List.append_nil, List.reverse_reverse]

theorem skipWs_not_ws {c : Char} (h : isJsonWs c = false) (cs : List Char) :
    skipWs (c :: cs) = c :: cs := by
  simp [skipWs, h]

theorem skipWs_space (cs : List Char) : skipWs (' ' :: cs) = skipWs cs := by
  simp [skipWs, isJsonWs]

theorem parseValue_ws (f : Nat) (cs : List Char) :
    parseValue f (' ' :: cs) = parseValue f cs := by
  cases f with
  | zero => rfl
  | succ g => simp only [parseValue, skipWs_space]

theorem parseMembers_space (f : Nat) (cs : List Char)
    (acc : List (String × Json)) :
    parseMembers f (' ' :: cs) acc = parseMembers f cs acc := by
  cases f with
  | zero => rfl
  | succ g => simp only [parseMembers, skipWs_space]

theorem parseValue_strLit (fuel : Nat) (s : String) (rest : List Char) :
    parseValue (fuel + 1) ('"' :: (escList s.data ++ ('"' :: rest))) =
      some (.str s, rest) := by
  simp [parseValue, skipWs_not_ws, isJsonWs, parseStrAux_lit]

theorem parseMembers_strMember (fuel : Nat) (key val : String)
    (after : List Char) (acc : List (String × Json)) :
    parseMembers (fuel + 2)
        ('"' :: (escList key.data ++
          ('"' :: ':' :: ' ' :: '"' :: (escList val.data ++ ('"' :: after)))))
        acc =
      (match skipWs after with
       | ',' :: cs5 => parseMembers (fuel + 1) cs5 (insertField acc key (.str val))
       | '}' :: cs5 => some (.obj (insertField acc key (.str val)), cs5)
       | _ => none) := by
  have hlit := parseStrAux_lit key
    (':' :: ' ' :: '"' :: (escList val.data ++ ('"' :: after)))
  have hval := parseValue_strLit fuel val after
  simp [parseMembers, skipWs_not_ws, isJsonWs, hlit, parseValue_ws, hval]

theorem dumps_description_data (h c m : String) :
    (dumps_description h c m).data =
      '{' :: '"' :: (escList ("SHA256".data) ++ ('"' :: ':' :: ' ' :: '"' ::
        (escList h.data ++ ('"' :: ',' :: ' ' :: '"' :: (escList ("ctime".data) ++
          ('"' :: ':' :: ' ' :: '"' :: (escList c.data ++ ('"' :: ',' :: ' ' :: '"' ::
            (escList ("utime".data) ++ ('"' :: ':' :: ' ' :: '"' ::
              (escList m.data ++ ('"' :: '}' :: [])))))))))))) := by
  have k1 : escList ("SHA256".data) = ['S', 'H', 'A', '2', '5', '6'] := rfl
  have k2 : escList ("ctime".data) = ['c', 't', 'i', 'm', 'e'] := rfl
  have k3 : escList ("utime".data) = ['u', 't', 'i', 'm', 'e'] := rfl
  have p1 : ("\x7b\"SHA256\": " : String).data =
      ['{', '"', 'S', 'H', 'A', '2', '5', '6', '"', ':', ' '] := rfl
  have p2 : (", \"ctime\": " : String).data =
      [',', ' ', '"', 'c', 't', 'i', 'm', 'e', '"', ':', ' '] := rfl
  have p3 : (", \"utime\": " : String).data =
      [',', ' ', '"', 'u', 't', 'i', 'm', 'e', '"', ':', ' '] := rfl
  have p4 : ("\x7d" : String).data = ['}'] := rfl
  have pm : ∀ l : List Char, (String.mk l).data = l := fun _ => rfl
  simp [dumps_description, strLit, String.data_append, pm, p1, p2, p3, p4,
    k1, k2, k3, List.append_assoc]

theorem parseValue_dumps (fuel : Nat) (h c m : String) :
    parseValue (fuel + 5) (dumps_description h c m).data =
      some (.obj [("SHA256", .str h), ("ctime", .str c), ("utime", .str m)],
        []) := by
  have e14 : fuel + 2 + 2 = fuel + 4 := by omega
  have e13 : fuel + 2 + 1 = fuel + 3 := by omega
  have e23 : fuel + 1 + 2 = fuel + 3 := by omega
  have e22 : fuel + 1 + 1 = fuel + 2 := by omega
  have m1 := parseMembers_strMember (fuel + 2) "SHA256" h
    (',' :: ' ' :: '"' :: (escList ("ctime".data) ++
      ('"' :: ':' :: ' ' :: '"' :: (escList c.data ++ ('"' :: ',' :: ' ' :: '"' ::
        (escList ("utime".data) ++ ('"' :: ':' :: ' ' :: '"' ::
          (escList m.data ++ ('"' :: '}' :: []))))))))) []
  rw [e14, e13] at m1
  have m2 := parseMembers_strMember (fuel + 1) "ctime" c
    (',' :: ' ' :: '"' :: (escList ("utime".data) ++
      ('"' :: ':' :: ' ' :: '"' :: (escList m.data ++ ('"' :: '}' :: [])))))
    [("SHA256", .str h)]
  rw [e23, e22] at m2
  have m3 := parseMembers_strMember fuel "utime" m ('}' :: [])
    [("SHA256", .str h), ("ctime", .str c)]
  rw [dumps_description_data]
  simp only [parseValue]
  simp [skipWs_not_ws, isJsonWs]
  rw [m1]
  simp [skipWs_not_ws, isJsonWs, insertField, parseMembers_space]
  rw [m2]
  simp [skipWs_not_ws, isJsonWs, insertField, parseMembers_space]
  rw [m3]
  simp [skipWs_not_ws, isJsonWs, insertField]

theorem parseJson_dumps (h c m : String) :
    parseJson (dumps_description h c m) =
      some (.obj [("SHA256", .str h), ("ctime", .str c), ("utime", .str m)]) := by
  have l1 : ("\x7b\"SHA256\": " : String).length = 11 := rfl
  have l2 : (", \"ctime\": " : String).length = 11 := rfl
  have l3 : (", \"utime\": " : String).length = 11 := rfl
  have l4 : ("\x7d" : String).length = 1 := rfl
  have hlen : (dumps_description h c m).length + 1 =
      ((strLit h).length + (strLit c).length + (strLit m).length + 30) + 5 := by
    simp only [dumps_description, String.length_append, l1, l2, l3, l4]
    omega
  unfold parseJson
  rw [hlen,
      parseValue_dumps ((strLit h).length + (strLit c).length +
        (strLit m).length + 30) h c m]
  simp [skipWs]

theorem decode_dumps (h c m : String) (c0 m0 : Json) :
    decode_description c0 m0 (dumps_description h c m) =
      (.str c, .str m, .str h) := by
  have hne : ¬ dumps_description h c m = "" := by
    intro he
    have hd : (dumps_description h c m).data = [] := by rw [he]
    rw [dumps_description_data] at hd
    exact List.noConfusion hd
  unfold decode_description
  rw [if_neg hne, parseJson_dumps]
  simp [jget, lookupField]

theorem processSegs_skip (create : Create) (pathList : List String)
    (parentId : String) :
    ∀ (idxs : List Nat) (st : PState),
      (∀ i ∈ idxs,
        (lookup st.foldersList (mangle (pathList.getD i ""))).isSome = true) →
      processSegs create pathList parentId idxs st = (st, none) := by
  intro idxs
  induction idxs with
  | nil => intro st h; rfl
  | cons i rest ih =>
    intro st h
    simp only [processSegs]
    rw [processSegment_skip _ _ _ _ _ (h i (List.mem_cons_self _ _))]
    exact ih st (fun j hj => h j (List.mem_cons_of_mem _ hj))

theorem processFiles_skip (create : Create) (parentId : String) :
    ∀ (files : List String) (st : PState),
      (∀ p ∈ files, ∀ i ∈ List.range (splitChar '\\' p).length,
        (lookup st.foldersList
          (mangle ((splitChar '\\' p).getD i ""))).isSome = true) →
      processFiles create parentId files st = (st, none) := by
  intro files
  induction files with
  | nil => intro st h; rfl
  | cons p rest ih =>
    intro st h
    simp only [processFiles]
    rw [processSegs_skip create _ parentId _ st (h p (List.mem_cons_self _ _))]
    exact ih st (fun q hq => h q (List.mem_cons_of_mem _ hq))

/-! ## Claim theorems -/

/-- C1: the claim says `delete` repeatedly refreshes the remote tree inside
    the prune loop and terminates once a refresh reports zero empty folders.
    The code reads the tree once, before the loop: whenever the single read
    reports at least one empty folder, the loop recomputes the same nonempty
    `empty_dirs` from the unchanged list forever and never reaches its
    `break`, for any number of iterations. -/
theorem claim1_delete_prune_never_terminates
    (fileIds : List Nat) (folders : List DelFolder) (fuel : Nat)
    (hids : fileIds ≠ []) (hempty : ∃ f ∈ folders, f.empty = true) :
    (delete fileIds folders fuel).2 = false := by
  simp only [delete, if_neg hids]
  exact deleteLoop_stuck (emptyDirsOf_ne_nil hempty) fuel [fileIds]

/-- Witness for C1: deleting entry 1 with folder 2 left empty never ends,
    here within 5 modeled iterations. -/
theorem claim1_witness : (delete [1] [⟨2, true⟩] 5).2 = false :=
  claim1_delete_prune_never_terminates [1] [⟨2, true⟩] 5 (by decide)
    ⟨⟨2, true⟩, by decide, rfl⟩

/-- C2 counterexample: the claim says a cancellation flag set before a
    block-write iteration stops further block writes.  With three streamed
    blocks and the flag set from iteration 1 on, the claim predicts only the
    first block is written; the code writes all three (the download loop of
    `FileJumpApi.read` contains no flag check). -/
theorem claim2_counterexample :
    api_read true (fun k => decide (1 ≤ k))
        (fun _ => .ok ⟨300, [[1], [2], [3]]⟩) true [(some 1, some "a.txt")] =
      .ok { written := [("a.txt", [[1], [2], [3]])], progress := [0, 0, 1],
            flagAfterEntry := false } ∧
    ([("a.txt", [[1], [2], [3]])] : List (String × List (List Nat))) ≠
      [("a.txt", [[1]])] :=
  ⟨rfl, by decide⟩

/-- C2 amended: the download loop of `FileJumpApi.read` never consults the
    cancellation flag — the result is the same for any two flag timelines —
    and a successfully fetched entry has every streamed non-empty block
    written, the method returning without raising. -/
theorem claim2_download_ignores_flag (b : Bool) (flag flag' : Nat → Bool)
    (g : Nat → Except Unit Response) (hcb : Bool)
    (files : List (Option Nat × Option String)) (i : Nat) (nm : String)
    (resp : Response) :
    api_read b flag g hcb files = api_read b flag' g hcb files ∧
    (g i = .ok resp → i ≠ 0 → nm ≠ "" →
      ∃ r, api_read b flag g hcb [(some i, some nm)] = .ok r ∧
        r.written = [(nm, resp.chunks.filter (fun ch => decide (ch ≠ [])))]) := by
  constructor
  · simp only [api_read, readFiles_flag_irrel flag flag' g hcb files]
  · intro hg h0 hn
    refine ⟨{ written := [(nm, resp.chunks.filter (fun ch => decide (ch ≠ [])))],
              progress := (chunkLoop hcb resp.contentLength flag resp.chunks 0 0).2,
              flagAfterEntry := false }, ?_, rfl⟩
    simp [api_read, readFiles, h0, hn, hg, chunkLoop_written]

/-- Witness for C2 amended: one file of three blocks with the flag set the
    whole time; all three blocks are written. -/
theorem claim2_witness :
    (fun _ => .ok ⟨300, [[1], [2], [3]]⟩ : Nat → Except Unit Response) 1 =
        .ok ⟨300, [[1], [2], [3]]⟩ ∧
    ∃ r, api_read true (fun _ => true)
        (fun _ => .ok ⟨300, [[1], [2], [3]]⟩) true [(some 1, some "a.txt")] =
          .ok r ∧
      r.written = [("a.txt", ([[1], [2], [3]] : List (List Nat)).filter
        (fun ch => decide (ch ≠ [])))] :=
  ⟨rfl,
    (claim2_download_ignores_flag true (fun _ => true) (fun _ => false)
      (fun _ => .ok ⟨300, [[1], [2], [3]]⟩) true [] 1 "a.txt"
      ⟨300, [[1], [2], [3]]⟩).2 rfl (by decide) (by decide)⟩

/-- C3: with an always-failing creation collaborator and a missing segment
    `"abc"` under a parent `"xyz"` resolvable in the index, the retry loop of
    `create_folders` issues 6 create calls (the `num_tries > 5` check runs
    after the increment), sleeps 20 seconds after each of the 6 failures, and
    then raises the `FJError` naming the segment and its intended parent —
    while the raised message itself says "after 5 attempts". -/
theorem claim3_retry_makes_six_attempts :
    (create_folders alwaysFail ["abc"] "xyz" [⟨"xyz", 0, ""⟩]).2 =
      some (.tooManyTries "abc" "xyz") ∧
    (create_folders alwaysFail ["abc"] "xyz" [⟨"xyz", 0, ""⟩]).1.calls.length = 6 ∧
    (create_folders alwaysFail ["abc"] "xyz" [⟨"xyz", 0, ""⟩]).1.sleeps = 120 := by
  decide

/-- C4 counterexample: with an always-timing-out upload collaborator the
    attempts use timeouts 1000, 10000 and 100000 before the timeout error:
    contrary to the claim, a retry is attempted with a timeout above the
    10000 cap (the cap check precedes the ×10 escalation). -/
theorem claim4_counterexample :
    (post_file false alwaysTimeout (fun _ => false)).attempts =
      [1000, 10000, 100000] ∧
    ¬ (∀ t ∈ (post_file false alwaysTimeout (fun _ => false)).attempts,
        t ≤ 10000) := by
  decide

/-- C4 amended: the upload timeout starts at 1000 and escalates ×10 on each
    retry; with an always-timing-out collaborator the attempts run with
    timeouts 1000, 10000 and 100000 — the last retry already above the
    10000 cap — and the operation then fails permanently with a timeout
    error reporting 100000. -/
theorem claim4_timeout_escalation (b : Bool) (cd : Nat → Bool) :
    post_file b alwaysTimeout cd =
      { attempts := [1000, 10000, 100000], outcome := .errTimeout 100000,
        flagAtEntry := false } :=
  rfl

/-- C5 counterexample: with the supplied root parent id `"root"` absent from
    the folder-name index, provisioning of the missing first segment `"abc"`
    issues no create call at all — it raises a `KeyError` on
    `folders_list[parent_id.ljust(3, "_")]` instead of creating the segment
    as a child of the supplied parent id. -/
theorem claim5_counterexample :
    create_folders echoCreate ["abc"] "root" [] =
      ({ foldersList := [], allFolders := [], calls := [], sleeps := 0 },
       some (.keyError "root")) ∧
    (create_folders echoCreate ["abc"] "root" []).1.calls = [] := by
  decide

/-- C5 amended: for a chain whose segments are missing from the index, the
    first segment is created as a child of the id obtained by looking up the
    padded supplied parent id in the folder-name index (a missing key raises
    a `KeyError` instead, see the counterexample), each later missing segment
    as a child of the previous segment's resolved id; on success the new
    folder's id is inserted into the index under the returned name and the
    folder is appended to the shared folder list. -/
theorem claim5_provision_chain (parentId : String) (pid : Nat)
    (folders0 : List FolderData)
    (h1 : lookup (buildIndex folders0) (ljust parentId 3 '_') = some pid)
    (h2 : lookup (buildIndex folders0) "abc" = none)
    (h3 : lookup (buildIndex folders0) "xyz" = none) :
    create_folders echoCreate ["abc\\xyz"] parentId folders0 =
      ({ foldersList := insertD (insertD (buildIndex folders0) "abc" 1000) "xyz" 1001,
         allFolders := folders0 ++ [⟨"abc", 1000, "abc"⟩, ⟨"xyz", 1001, "abc\\xyz"⟩],
         calls := [("abc", pid), ("xyz", 1000)], sleeps := 0 }, none) := by
  have s1 : processSegment echoCreate ["abc", "xyz"] parentId 0
      { foldersList := buildIndex folders0, allFolders := folders0,
        calls := [], sleeps := 0 } =
      ({ foldersList := insertD (buildIndex folders0) "abc" 1000,
         allFolders := folders0 ++ [⟨"abc", 1000, "abc"⟩],
         calls := [("abc", pid)], sleeps := 0 }, none) := by
    rw [processSegment_create _ _ _ _ pid h2 h1]; exact rfl
  have h2b : lookup (insertD (buildIndex folders0) "abc" 1000) "xyz" = none := by
    rw [lookup_insertD_ne _ _ (by decide)]; exact h3
  have h1b : lookup (insertD (buildIndex folders0) "abc" 1000) "abc" = some 1000 :=
    lookup_insertD_self _ _ _
  have s2 : processSegment echoCreate ["abc", "xyz"] parentId 1
      { foldersList := insertD (buildIndex folders0) "abc" 1000,
        allFolders := folders0 ++ [⟨"abc", 1000, "abc"⟩],
        calls := [("abc", pid)], sleeps := 0 } =
      ({ foldersList := insertD (insertD (buildIndex folders0) "abc" 1000) "xyz" 1001,
         allFolders := folders0 ++ [⟨"abc", 1000, "abc"⟩, ⟨"xyz", 1001, "abc\\xyz"⟩],
         calls := [("abc", pid), ("xyz", 1000)], sleeps := 0 }, none) := by
    rw [processSegment_create _ _ _ _ 1000 h2b h1b]
    simp only [List.append_assoc]
    exact rfl
  simp only [create_folders, processFiles]
  rw [show splitChar '\\' "abc\\xyz" = ["abc", "xyz"] from rfl]
  rw [show List.range (["abc", "xyz"] : List String).length = [0, 1] from rfl]
  simp only [processSegs, s1, s2]

/-- Witness for C5 amended: supplied parent `"ab"` is padded to `"ab_"` and
    resolved through the index to id 5; `"abc"` is created under 5 and
    `"xyz"` under the fresh id 1000. -/
theorem claim5_witness :
    create_folders echoCreate ["abc\\xyz"] "ab" [⟨"ab_", 5, ""⟩] =
      ({ foldersList := insertD (insertD (buildIndex [⟨"ab_", 5, ""⟩]) "abc" 1000) "xyz" 1001,
         allFolders := [⟨"ab_", 5, ""⟩] ++ [⟨"abc", 1000, "abc"⟩, ⟨"xyz", 1001, "abc\\xyz"⟩],
         calls := [("abc", 5), ("xyz", 1000)], sleeps := 0 }, none) :=
  claim5_provision_chain "ab" 5 [⟨"ab_", 5, ""⟩] (by decide) (by decide) (by decide)

/-- C6: provisioning is idempotent.  With the name-echoing collaborator, a
    first `create_folders` call that succeeds issues create calls whose
    names are pairwise distinct and were all missing from the initial index
    (exactly one remote create per missing segment); a second call with the
    identical chain finds every segment in the rebuilt name→id index and
    issues no create calls at all. -/
theorem claim6_idempotent_provisioning (files : List String) (parentId : String)
    (folders0 : List FolderData)
    (h : (create_folders echoCreate files parentId folders0).2 = none) :
    (create_folders echoCreate files parentId
        (create_folders echoCreate files parentId folders0).1.allFolders).2 = none ∧
    (create_folders echoCreate files parentId
        (create_folders echoCreate files parentId folders0).1.allFolders).1.calls = [] ∧
    ((create_folders echoCreate files parentId folders0).1.calls.map
        Prod.fst).Nodup ∧
    (∀ nm ∈ (create_folders echoCreate files parentId folders0).1.calls.map
        Prod.fst, lookup (buildIndex folders0) nm = none) := by
  cases hE : processFiles echoCreate parentId files
      { foldersList := buildIndex folders0, allFolders := folders0,
        calls := [], sleeps := 0 } with
  | mk st1 e1 =>
    have hr1 : create_folders echoCreate files parentId folders0 = (st1, e1) := hE
    rw [hr1] at h ⊢
    have he : e1 = none := h
    subst he
    have hinv0 : ProvisionInv (buildIndex folders0)
        { foldersList := buildIndex folders0, allFolders := folders0,
          calls := [], sleeps := 0 } :=
      ⟨fun k => lookup_buildIndex_isSome folders0 k, fun _ hk => hk,
        by simp, by simp⟩
    obtain ⟨hinv1, -, hpres⟩ :=
      processFiles_inv parentId (buildIndex folders0) files _ st1 hE hinv0
    obtain ⟨hkeys1, -, hcalls1, hnd1⟩ := hinv1
    have hpres2 : ∀ p ∈ files, ∀ i ∈ List.range (splitChar '\\' p).length,
        (lookup (buildIndex st1.allFolders)
          (mangle ((splitChar '\\' p).getD i ""))).isSome = true := by
      intro p hp i hi
      rw [lookup_buildIndex_isSome]
      exact (hkeys1 _).1 (hpres p hp i hi)
    have hskip := processFiles_skip echoCreate parentId files
      { foldersList := buildIndex st1.allFolders, allFolders := st1.allFolders,
        calls := [], sleeps := 0 } hpres2
    have hr2 : create_folders echoCreate files parentId st1.allFolders =
        ({ foldersList := buildIndex st1.allFolders,
           allFolders := st1.allFolders, calls := [], sleeps := 0 }, none) :=
      hskip
    rw [hr2]
    exact ⟨rfl, rfl, hnd1, fun nm hnm => (hcalls1 nm hnm).2⟩

/-- Witness for C6: a successful first call over the chain `"ab\cde"` under
    `"root"`, then the second identical call issues no creates. -/
theorem claim6_witness :
    (create_folders echoCreate ["ab\\cde"] "root"
        (create_folders echoCreate ["ab\\cde"] "root"
          [⟨"root", 1, ""⟩]).1.allFolders).2 = none ∧
    (create_folders echoCreate ["ab\\cde"] "root"
        (create_folders echoCreate ["ab\\cde"] "root"
          [⟨"root", 1, ""⟩]).1.allFolders).1.calls = [] ∧
    ((create_folders echoCreate ["ab\\cde"] "root"
        [⟨"root", 1, ""⟩]).1.calls.map Prod.fst).Nodup ∧
    (∀ nm ∈ (create_folders echoCreate ["ab\\cde"] "root"
        [⟨"root", 1, ""⟩]).1.calls.map Prod.fst,
      lookup (buildIndex [⟨"root", 1, ""⟩]) nm = none) :=
  claim6_idempotent_provisioning ["ab\\cde"] "root" [⟨"root", 1, ""⟩] (by decide)

/-- C7: the fingerprint codec round-trips — decoding the `json.dumps`
    payload written by `write_file` recovers exactly the hash and the two
    timestamps, for arbitrary strings (whatever escaping `json.dumps`
    performed); and for a description that does not parse as a JSON object,
    decoding at the codec boundary (empty defaults) yields all-empty
    fingerprint fields and never raises. -/
theorem claim7_fingerprint_roundtrip (h c m : String) (c0 m0 : Json)
    (desc : String) :
    decode_description c0 m0 (dumps_description h c m) =
      (.str c, .str m, .str h) ∧
    ((¬ ∃ fields, parseJson desc = some (.obj fields)) →
      decode_description (.str "") (.str "") desc =
        (.str "", .str "", .str "")) :=
  ⟨decode_dumps h c m c0 m0,
   fun hm => decode_description_not_obj _ _ desc
     (fun fields hf => hm ⟨fields, hf⟩)⟩

/-- Witness for C7: the round-trip at `("hh", "cc", "mm")` and the
    malformed input `"xyz"`. -/
theorem claim7_witness :
    decode_description (Json.str "a") (Json.str "b")
        (dumps_description "hh" "cc" "mm") =
      (Json.str "cc", Json.str "mm", Json.str "hh") ∧
    decode_description (Json.str "") (Json.str "") "xyz" =
      (Json.str "", Json.str "", Json.str "") :=
  ⟨(claim7_fingerprint_roundtrip "hh" "cc" "mm" (Json.str "a") (Json.str "b")
      "xyz").1,
   (claim7_fingerprint_roundtrip "hh" "cc" "mm" (Json.str "a") (Json.str "b")
      "xyz").2
     (fun hex => by
       obtain ⟨fields, hf⟩ := hex
       rw [show parseJson "xyz" = none from rfl] at hf
       exact Option.noConfusion hf)⟩

/-- C8 counterexample: the description `"{}"` parses as a JSON object but
    lacks the fingerprint keys; the claim predicts the emitted record keeps
    the service timestamps, yet the code overwrites them with the
    `dict.get` default `""` — for a service `created_at` of `"2020-01-01"`
    the emitted `ctime` is the empty string, not the service timestamp. -/
theorem claim8_counterexample :
    read_directory_tree
      [{ id := 7, name := "a.txt", typ := "file", path := "3/7",
         created_at := "2020-01-01", updated_at := "2020-01-02",
         file_size := 5, description := "\x7b\x7d" }]
      [{ id := 3, name := "docs", typ := "folder", path := "3",
         created_at := "", updated_at := "", file_size := 0, description := "" }]
      (some "0") =
    .ok ([{ path := "3/7", ppath := "docs\\a.txt", name := "a.txt",
            ctime := .str "", mtime := .str "", size := 5,
            sha256 := .str "", id := 7 }], []) ∧
    Json.str "" ≠ Json.str "2020-01-01" :=
  ⟨rfl, by intro h; injection h with h2; exact absurd h2 (by decide)⟩

/-- C8 amended: whenever an entry's description is absent or does not parse
    as a JSON object, its record carries the service timestamps and an
    empty hash, and the decode never raises; when the description does parse
    as an object, the fields come from the object with empty-string
    defaults (so an object lacking the keys yields empty timestamps in
    place of the service ones, see the counterexample). -/
theorem claim8_malformed_description (dj : List (Nat × String))
    (e : RemoteEntry) (r : OutRecord)
    (hdesc : ∀ fields, parseJson e.description ≠ some (.obj fields))
    (hrec : buildRecord dj e = .ok r) :
    r.ctime = .str e.created_at ∧ r.mtime = .str e.updated_at ∧
      r.sha256 = .str "" := by
  unfold buildRecord at hrec
  cases hpp : entryPPath dj e with
  | error err => rw [hpp] at hrec; exact absurd hrec (by simp)
  | ok pp =>
    rw [hpp, decode_description_not_obj _ _ _ hdesc] at hrec
    simp only [Except.ok.injEq] at hrec
    rw [← hrec]; exact ⟨rfl, rfl, rfl⟩

/-- Witness for C8 amended: an unparseable description `"not json"` leaves
    the service timestamps `"c0"`/`"m0"` and the empty hash in the record. -/
theorem claim8_witness :
    Json.str "c0" = Json.str "c0" ∧ Json.str "m0" = Json.str "m0" ∧
      Json.str "" = Json.str "" :=
  claim8_malformed_description []
    { id := 7, name := "a", typ := "file", path := "7",
      created_at := "c0", updated_at := "m0", file_size := 0,
      description := "not json" }
    { path := "7", ppath := "a", name := "a", ctime := .str "c0",
      mtime := .str "m0", size := 0, sha256 := .str "", id := 7 }
    (fun fields h => by
      rw [show parseJson "not json" = none from rfl] at h
      exact Option.noConfusion h)
    rfl

/-- C9: for a path segment shorter than 3 characters the mangled folder name
    has length exactly 3 and starts with the original segment (right-padded
    with underscores); for a segment of length at least 3, mangling is the
    identity. -/
theorem claim9_mangle (s : String) :
    (s.length < 3 → (mangle s).length = 3 ∧ ∃ t, mangle s = s ++ t) ∧
    (3 ≤ s.length → mangle s = s) := by
  constructor
  · intro h
    refine ⟨?_, ⟨String.mk (List.replicate (3 - s.length) '_'), ?_⟩⟩
    · simp only [mangle, if_pos h]
      exact ljust_length 3 '_' (Nat.le_of_lt h)
    · simp [mangle, if_pos h, ljust]
  · intro h
    simp [mangle, Nat.not_lt.2 h]

/-- Witness for C9: `"x"` is padded to the 3-character `"x__"` extending it;
    `"abc"` is unchanged. -/
theorem claim9_witness :
    ((mangle "x").length = 3 ∧ ∃ t, mangle "x" = "x" ++ t) ∧
      mangle "abc" = "abc" :=
  ⟨(claim9_mangle "x").1 (by decide), (claim9_mangle "abc").2 (by decide)⟩

/-- C10: both transfer entry points reset the shared cancellation flag:
    `post_file` and `read` behave identically for any two values of the flag
    on entry (a cancellation requested before the call is discarded), and
    the flag right after entry is `false`. -/
theorem claim10_entry_resets_flag (b b' : Bool) (net : Nat → Nat → NetOut)
    (cd : Nat → Bool) (flag : Nat → Bool) (g : Nat → Except Unit Response)
    (hcb : Bool) (files : List (Option Nat × Option String)) :
    post_file b net cd = post_file b' net cd ∧
    (post_file b net cd).flagAtEntry = false ∧
    api_read b flag g hcb files = api_read b' flag g hcb files ∧
    (∀ r, api_read b flag g hcb files = .ok r → r.flagAfterEntry = false) := by
  refine ⟨rfl, rfl, rfl, ?_⟩
  intro r h
  simp only [api_read] at h
  cases hrf : readFiles flag g hcb files with
  | error e => rw [hrf] at h; exact absurd h (by simp)
  | ok p => rw [hrf] at h; simp only [Except.ok.injEq] at h; rw [← h]

/-- Witness for C10: a pre-set flag is discarded by both entry points, and a
    concrete download reports the flag false after entry. -/
theorem claim10_witness :
    post_file true alwaysTimeout (fun _ => false) =
      post_file false alwaysTimeout (fun _ => false) ∧
    (post_file true alwaysTimeout (fun _ => false)).flagAtEntry = false ∧
    api_read true (fun _ => true) (fun _ => .ok ⟨0, []⟩) true
        [(some 1, some "x")] =
      api_read false (fun _ => true) (fun _ => .ok ⟨0, []⟩) true
        [(some 1, some "x")] ∧
    ({ written := [("x", [])], progress := [], flagAfterEntry := false }
        : DlResult).flagAfterEntry = false :=
  ⟨(claim10_entry_resets_flag true false alwaysTimeout (fun _ => false)
      (fun _ => true) (fun _ => .ok ⟨0, []⟩) true [(some 1, some "x")]).1,
   (claim10_entry_resets_flag true false alwaysTimeout (fun _ => false)
      (fun _ => true) (fun _ => .ok ⟨0, []⟩) true [(some 1, some "x")]).2.1,
   (claim10_entry_resets_flag true false alwaysTimeout (fun _ => false)
      (fun _ => true) (fun _ => .ok ⟨0, []⟩) true [(some 1, some "x")]).2.2.1,
   (claim10_entry_resets_flag true false alwaysTimeout (fun _ => false)
      (fun _ => true) (fun _ => .ok ⟨0, []⟩) true [(some 1, some "x")]).2.2.2
      { written := [("x", [])], progress := [], flagAfterEntry := false } rfl⟩

end FJ
